import Mathlib

/-!
Verification of the Project CodeNet problem-extraction pipelines.

This file gives a shallow embedding of the two Python extraction scripts
(`extract_all_problems_improved.py`, the "improved" pipeline, and
`extract_all_problems.py`, the "original" pipeline) and proves or refutes
the specification claims about them.

Modelling conventions:
* Python strings are Lean `String`s; character-level operations are written
  over `List Char` (`String.data`).  Functions such as `str.strip`,
  `str.splitlines`, `str.split`, `str.lower`, `str.replace` and the
  substring test `in` are re-implemented faithfully for the ASCII fragment
  that the pipelines' literal constants live in (Python additionally treats
  some non-ASCII code points as whitespace/digits/case-mapped; none of the
  constants in the source use them).
* Parsed HTML is modelled as a tree of nodes (`Node`): elements with a tag
  name and an ordered child list, text nodes, and comment nodes.  A comment
  node carries both its raw text (what `get_text`/`str` sees) and the node
  list obtained by re-parsing its content as HTML (what
  `extract_from_comments` builds with a nested `BeautifulSoup` call).
  Attributes are not modelled: the source never reads them.
* BeautifulSoup behaviour is modelled after current bs4 with the
  `html.parser` builder: `Tag.get_text()` concatenates descendant plain
  strings, excluding comments and script/style payloads;
  `NavigableString.get_text()` (hence also on comments) returns the string
  itself, so sibling walks guarded by `hasattr(current, "get_text")` see
  every node; tag equality (`==`/`!=`) is structural; `soup.find` /
  `find_all` search descendants in document order; `.string` of a tag is
  its unique string child (through unique element children).
* A document handed to an extraction entry point is a `Doc`: the raw file
  text together with its parse tree.  Parsing itself is external to the
  pipelines, so theorems quantify over arbitrary pairs.
* Floating-point confidence arithmetic is modelled with exact rationals;
  all the increments involved are exactly representable and no claim
  depends on rounding.
-/

set_option autoImplicit false

namespace CodeNet

/-! ## Python string primitives -/

/-- Characters treated as whitespace by `str.strip()` (ASCII fragment). -/
def isPySpace (c : Char) : Bool :=
  c = ' ' || c = '\t' || c = '\n' || c = '\r' || c = '\x0b' || c = '\x0c'

/-- Characters matched by the regex class `\d` (ASCII fragment). -/
def isPyDigit (c : Char) : Bool := c.isDigit

/-- Characters matched by the regex class `\w` (ASCII fragment). -/
def isPyWord (c : Char) : Bool := c.isAlphanum || c = '_'

/-- The regex character class `[≤<=]` from the range templates. -/
def isCmpChar (c : Char) : Bool := c = '≤' || c = '<' || c = '='

/-- `str.strip()` on a character list. -/
def pyStripL (l : List Char) : List Char :=
  ((l.dropWhile isPySpace).reverse.dropWhile isPySpace).reverse

/-- Python `str.strip()`. -/
def pyStrip (s : String) : String := ⟨pyStripL s.data⟩

/-- Python `str.lower()` (ASCII case mapping). -/
def pyLower (s : String) : String := ⟨s.data.map Char.toLower⟩

/-- Worker for `pySplitlines`; `acc` holds the current line reversed. -/
def splitlinesAux (acc : List Char) : List Char → List (List Char)
  | [] => [acc.reverse]
  | '\r' :: '\n' :: rest =>
    if rest.isEmpty then [acc.reverse] else acc.reverse :: splitlinesAux [] rest
  | '\n' :: rest =>
    if rest.isEmpty then [acc.reverse] else acc.reverse :: splitlinesAux [] rest
  | '\r' :: rest =>
    if rest.isEmpty then [acc.reverse] else acc.reverse :: splitlinesAux [] rest
  | c :: rest => splitlinesAux (c :: acc) rest

/-- Python `str.splitlines()` for the terminators `\n`, `\r`, `\r\n`:
a trailing terminator does not produce a final empty line, and the empty
string yields no lines. -/
def pySplitlines (l : List Char) : List (List Char) :=
  if l.isEmpty then [] else splitlinesAux [] l

/-- Worker for `splitTwoSpaces`: split on each occurrence of two
consecutive spaces, keeping empty fragments, like `str.split("  ")`. -/
def splitTwoSpacesAux (acc : List Char) : List Char → List (List Char)
  | [] => [acc.reverse]
  | ' ' :: ' ' :: rest => acc.reverse :: splitTwoSpacesAux [] rest
  | c :: rest => splitTwoSpacesAux (c :: acc) rest

/-- Python `line.split("  ")`. -/
def splitTwoSpaces (l : List Char) : List (List Char) := splitTwoSpacesAux [] l

/-- Worker for `pySplitChar`. -/
def pySplitCharAux (sep : Char) (acc : List Char) : List Char → List (List Char)
  | [] => [acc.reverse]
  | c :: rest =>
    if c = sep then acc.reverse :: pySplitCharAux sep [] rest
    else pySplitCharAux sep (c :: acc) rest

/-- Python `str.split(sep)` for a one-character separator, keeping empty
fragments. -/
def pySplitChar (sep : Char) (l : List Char) : List (List Char) :=
  pySplitCharAux sep [] l

/-- `sep.join(parts)`. -/
def joinWith (sep : String) : List String → String
  | [] => ""
  | [s] => s
  | s :: rest => s ++ sep ++ joinWith sep rest

/-- `pat` is a leading segment of `l`. -/
def startsWithL (pat l : List Char) : Bool :=
  match pat, l with
  | [], _ => true
  | _ :: _, [] => false
  | a :: ps, b :: ls => a = b && startsWithL ps ls

/-- Worker for the Python substring test `pat in l`. -/
def containsAux (pat : List Char) : List Char → Bool
  | [] => pat.isEmpty
  | l@(_ :: rest) => startsWithL pat l || containsAux pat rest

/-- Python substring test `sub in s`. -/
def strContains (s sub : String) : Bool := containsAux sub.data s.data

/-- Case-insensitive substring test, as produced by
`re.compile(re.escape(name), re.I).search`. -/
def strContainsCI (s sub : String) : Bool := strContains (pyLower s) (pyLower sub)

/-- Decimal value of a digit list (`int` on a digit string). -/
def digitsToNat (l : List Char) : Nat :=
  l.foldl (fun n c => n * 10 + (c.toNat - '0'.toNat)) 0

/-- `int(problem_id[1:]) if problem_id[1:].isdigit() else 0`. -/
def parseProblemNum (problem_id : String) : Nat :=
  let t := problem_id.drop 1
  if t ≠ "" ∧ t.data.all isPyDigit then digitsToNat t.data else 0

/-- Worker for `pyReplace`; fuel bounds the scan length.  Replacement is
non-overlapping and left-to-right, like `str.replace`; the empty-pattern
case (never used by the source, whose patterns are literal nonempty
strings) is treated as no-op to keep the fuel recursion sound. -/
def pyReplaceAux (pat repl : List Char) : Nat → List Char → List Char
  | 0, l => l
  | _ + 1, [] => []
  | n + 1, l@(c :: rest) =>
    if startsWithL pat l && !pat.isEmpty then
      repl ++ pyReplaceAux pat repl n (l.drop pat.length)
    else c :: pyReplaceAux pat repl n rest

/-- Python `s.replace(pat, repl)`. -/
def pyReplace (s pat repl : String) : String :=
  ⟨pyReplaceAux pat.data repl.data s.data.length s.data⟩

/-- The whitespace-normalisation half of `clean_html_text`: split into
lines, strip each, split each on double spaces, strip the pieces, drop
empty pieces, rejoin with single spaces. -/
def whitespaceCleanup (text : String) : String :=
  let lines := (pySplitlines text.data).map pyStripL
  let chunks := (lines.flatMap fun line => (splitTwoSpaces line).map pyStripL)
  joinWith " " ((chunks.filter fun l => !l.isEmpty).map fun l => (⟨l⟩ : String))

/-! ## DOM model (parsed HTML) -/

/-- A parsed HTML node.  `comment raw parsed` carries both the comment's
raw text (what `get_text`/`str` see) and the node list its content parses
to (what `extract_from_comments` re-parses with a nested soup). -/
inductive Node where
  | elem (tag : String) (children : List Node)
  | text (s : String)
  | comment (raw : String) (parsed : List Node)

/-- The tag name of an element node (`Tag.name`). -/
def Node.tagOf : Node → Option String
  | .elem t _ => some t
  | _ => none

mutual
/-- Structural node equality: bs4 `Tag.__eq__` compares name and contents
recursively, `NavigableString.__eq__` compares the text. -/
def nodeEq : Node → Node → Bool
  | .elem t cs, .elem t2 cs2 => t == t2 && nodeListEq cs cs2
  | .text s, .text s2 => s == s2
  | .comment r p, .comment r2 p2 => r == r2 && nodeListEq p p2
  | _, _ => false
def nodeListEq : List Node → List Node → Bool
  | [], [] => true
  | c :: cs, c2 :: cs2 => nodeEq c c2 && nodeListEq cs cs2
  | _, _ => false
end

mutual
/-- `Tag.get_text()`: concatenation of the plain-string descendants in
document order.  Comments and script/style payloads are excluded (bs4
yields them as `Comment`/`Script`/`Stylesheet` strings, which `get_text`
skips). -/
def getText : Node → String
  | .elem t cs => if t == "script" || t == "style" then "" else getTextList cs
  | .text s => s
  | .comment _ _ => ""
def getTextList : List Node → String
  | [] => ""
  | c :: cs => getText c ++ getTextList cs
end

/-- `current.get_text()` for an arbitrary page element: on a tag it is
`getText`; on a plain string or a comment (`NavigableString` subclasses)
it returns the string itself. -/
def pageText : Node → String
  | .elem t cs => getText (.elem t cs)
  | .text s => s
  | .comment raw _ => raw

mutual
/-- The `decompose` loop of `clean_html_text`: drop every `script` and
`style` element from the tree. -/
def stripScripts : List Node → List Node
  | [] => []
  | c :: rest => stripScriptsNode c ++ stripScripts rest
/-- One node under `decompose`: a `script`/`style` element vanishes, any
other element keeps its filtered children. -/
def stripScriptsNode : Node → List Node
  | .elem t cs =>
    if t == "script" || t == "style" then [] else [.elem t (stripScripts cs)]
  | n => [n]
end

/-- `clean_html_text` applied to the serialisation of a node list:
re-parsing `str(x)` gives back the same tree, so the model works on the
nodes directly (drop script/style, take the text, normalise whitespace). -/
def clean_html_nodes (cs : List Node) : String :=
  whitespaceCleanup (getTextList (stripScripts cs))

/-- `clean_html_text(str(node))`. -/
def clean_html_text (n : Node) : String := clean_html_nodes [n]

mutual
/-- bs4 `Tag.string`: the unique string child, looked up through unique
element children; `None` otherwise. -/
def nodeString : Node → Option String
  | .elem _ cs => nodeStringList cs
  | _ => none
/-- `Tag.string` over a child list: defined only for a singleton child. -/
def nodeStringList : List Node → Option String
  | [c] => nodeStringChild c
  | _ => none
/-- `Tag.string` of the unique child: a string child is returned, an
element child is looked into recursively. -/
def nodeStringChild : Node → Option String
  | .text s => some s
  | .comment raw _ => some raw
  | .elem _ cs => nodeStringList cs
end

mutual
/-- `soup.find(pred)` over a sibling list: first matching node in
document order (each node is visited before its descendants). -/
def findFirstList (p : Node → Bool) : List Node → Option Node
  | [] => none
  | c :: cs =>
    if p c then some c
    else
      match findFirstIn p c with
      | some r => some r
      | none => findFirstList p cs
def findFirstIn (p : Node → Bool) : Node → Option Node
  | .elem _ cs => findFirstList p cs
  | _ => none
end

mutual
/-- `element.find_all(pred)`: all matching descendants in document
order. -/
def findAllList (p : Node → Bool) : List Node → List Node
  | [] => []
  | c :: cs => (if p c then [c] else []) ++ findAllIn p c ++ findAllList p cs
def findAllIn (p : Node → Bool) : Node → List Node
  | .elem _ cs => findAllList p cs
  | _ => []
end

mutual
/-- `soup.find(pred)` returning the found node together with its following
siblings (used to model `next_sibling` walks from the found node). -/
def findWithSibsList (p : Node → Bool) : List Node → Option (Node × List Node)
  | [] => none
  | c :: cs =>
    if p c then some (c, cs)
    else
      match findWithSibsIn p c with
      | some r => some r
      | none => findWithSibsList p cs
def findWithSibsIn (p : Node → Bool) : Node → Option (Node × List Node)
  | .elem _ cs => findWithSibsList p cs
  | _ => none
end

mutual
/-- `soup.find(pred).parent`: the parent of the first matching descendant
(`par` is the node owning the sibling list being searched). -/
def findParentList (p : Node → Bool) (par : Node) : List Node → Option Node
  | [] => none
  | c :: cs =>
    if p c then some par
    else
      match findParentIn p c with
      | some r => some r
      | none => findParentList p par cs
def findParentIn (p : Node → Bool) : Node → Option Node
  | n@(.elem _ cs) => findParentList p n cs
  | _ => none
end

mutual
/-- All matching descendants, each with its following siblings (models the
`for h2 in soup.find_all("h2")` loop whose body walks `next_sibling`). -/
def findAllWithSibsList (p : Node → Bool) : List Node → List (Node × List Node)
  | [] => []
  | c :: cs =>
    (if p c then [(c, cs)] else []) ++ findAllWithSibsIn p c ++ findAllWithSibsList p cs
def findAllWithSibsIn (p : Node → Bool) : Node → List (Node × List Node)
  | .elem _ cs => findAllWithSibsList p cs
  | _ => []
end

mutual
/-- All comment nodes in document order
(`soup.find_all(string=lambda t: isinstance(t, Comment))`). -/
def commentNodesList : List Node → List Node
  | [] => []
  | c :: cs => commentNodesIn c ++ commentNodesList cs
def commentNodesIn : Node → List Node
  | .elem _ cs => commentNodesList cs
  | n@(.comment _ _) => [n]
  | _ => []
end

mutual
/-- Document-order listing of a node list: each node followed by its
descendants. -/
def preorderMany : List Node → List Node
  | [] => []
  | c :: cs => c :: childPreorder c ++ preorderMany cs
def childPreorder : Node → List Node
  | .elem _ cs => preorderMany cs
  | _ => []
end

mutual
/-- `soup.find(pred)` returning the node, its following siblings, and the
full `next_elements` stream after it (needed to model `find_next`).  The
accumulator `k` lists, in document order, the nodes that follow the
current sibling list's parent scope. -/
def findNextList (p : Node → Bool) (k : List Node) :
    List Node → Option (Node × List Node × List Node)
  | [] => none
  | c :: cs =>
    if p c then some (c, cs, childPreorder c ++ preorderMany cs ++ k)
    else
      match findNextIn p (preorderMany cs ++ k) c with
      | some r => some r
      | none => findNextList p k cs
def findNextIn (p : Node → Bool) (k : List Node) :
    Node → Option (Node × List Node × List Node)
  | .elem _ cs => findNextList p k cs
  | _ => none
end

/-! ## Section maps (Python dicts, insertion-ordered) -/

/-- An insertion-ordered string-to-string mapping (a Python `dict`). -/
abbrev SectionMap := List (String × String)

/-- `sections.get(k)`. -/
def smGet (m : SectionMap) (k : String) : Option String :=
  match m with
  | [] => none
  | (k2, v) :: rest => if k2 = k then some v else smGet rest k

/-- `sections[k] = v`: overwrite in place, else append. -/
def smSet (m : SectionMap) (k : String) (v : String) : SectionMap :=
  match m with
  | [] => [(k, v)]
  | (k2, v2) :: rest => if k2 = k then (k, v) :: rest else (k2, v2) :: smSet rest k v

/-- Truthiness of `sections.get(k)`: a missing key and an empty string are
both falsy. -/
def smTruthy (m : SectionMap) (k : String) : Prop := (smGet m k).getD "" ≠ ""

instance (m : SectionMap) (k : String) : Decidable (smTruthy m k) := by
  unfold smTruthy; infer_instance

/-! ## Shared record shape -/

/-- One extracted worked example (`sampleCases` entry). -/
structure SampleCase where
  input : String
  output : String
  explanation : String
deriving DecidableEq, Repr

/-- The structured record either pipeline emits for one document.  The
static code-template strings and the constant `notes`/`source` fields of
the Python dict are omitted: they are fixed boilerplate unrelated to
extraction. -/
structure Problem where
  questionId : String
  title : String
  description : String
  difficulty : String
  category : String
  tags : List String
  constraintsDescription : String
  ranges : String
  sampleCases : List SampleCase
  confidence : ℚ
deriving DecidableEq, Repr

/-- A document as handed to an entry point: the raw file text plus its
parse tree. -/
structure Doc where
  raw : String
  dom : Node

/-! ## Numeric-range extraction (shared verbatim by both scripts) -/

/-- Matcher for the template `(\d+)\s*[≤<=]\s*\w+\s*[≤<=]\s*(\d+)` at the
head of the input; returns the space-joined groups and the rest of the
input after the match.  Because the character classes of adjacent regex
pieces are disjoint (digits/word chars vs whitespace vs `≤<=`), Python's
greedy backtracking semantics coincide with maximal munch. -/
def matchDouble (l : List Char) : Option (String × List Char) :=
  let d1 := l.takeWhile isPyDigit
  let r1 := l.dropWhile isPyDigit
  if d1.isEmpty then none else
  match r1.dropWhile isPySpace with
  | [] => none
  | c :: r3 =>
    if !isCmpChar c then none else
    let r4 := r3.dropWhile isPySpace
    let w := r4.takeWhile isPyWord
    let r5 := r4.dropWhile isPyWord
    if w.isEmpty then none else
    match r5.dropWhile isPySpace with
    | [] => none
    | c2 :: r7 =>
      if !isCmpChar c2 then none else
      let r8 := r7.dropWhile isPySpace
      let d2 := r8.takeWhile isPyDigit
      let r9 := r8.dropWhile isPyDigit
      if d2.isEmpty then none else
      some ((⟨d1⟩ : String) ++ " " ++ (⟨d2⟩ : String), r9)

/-- Matcher for the template `\w+\s*[≤<=]\s*(\d+)` at the head of the
input. -/
def matchUpper (l : List Char) : Option (String × List Char) :=
  let w := l.takeWhile isPyWord
  let r1 := l.dropWhile isPyWord
  if w.isEmpty then none else
  match r1.dropWhile isPySpace with
  | [] => none
  | c :: r3 =>
    if !isCmpChar c then none else
    let r4 := r3.dropWhile isPySpace
    let d := r4.takeWhile isPyDigit
    let r5 := r4.dropWhile isPyDigit
    if d.isEmpty then none else some ((⟨d⟩ : String), r5)

/-- Matcher for the template `(\d+)\s*[≤<=]\s*\w+` at the head of the
input. -/
def matchLower (l : List Char) : Option (String × List Char) :=
  let d := l.takeWhile isPyDigit
  let r1 := l.dropWhile isPyDigit
  if d.isEmpty then none else
  match r1.dropWhile isPySpace with
  | [] => none
  | c :: r3 =>
    if !isCmpChar c then none else
    let r4 := r3.dropWhile isPySpace
    let w := r4.takeWhile isPyWord
    let r5 := r4.dropWhile isPyWord
    if w.isEmpty then none else some ((⟨d⟩ : String), r5)

/-- `re.findall` for one of the three matchers: scan left to right, emit
the groups of each match and resume after it, otherwise advance one
character.  Fuel bounds the scan; every template consumes at least one
character per match, so the input length is always enough fuel. -/
def findallAux (m : List Char → Option (String × List Char)) :
    Nat → List Char → List String
  | 0, _ => []
  | _ + 1, [] => []
  | n + 1, c :: cs =>
    match m (c :: cs) with
    | some (g, rest) => g :: findallAux m n rest
    | none => findallAux m n cs

/-- `re.findall(pattern, text)` against one template. -/
def pyFindall (m : List Char → Option (String × List Char)) (text : String) :
    List String :=
  findallAux m text.data.length text.data

/-- The `range_patterns` list, in source order. -/
def range_patterns : List (List Char → Option (String × List Char)) :=
  [matchDouble, matchUpper, matchLower]

/-- The `ranges` accumulation loop: all matches of all three templates, in
template order. -/
def rangesList (constraints_text : String) : List String :=
  range_patterns.foldl (fun acc pat => acc ++ pyFindall pat constraints_text) []

/-- The ranges string stored in the record: the semicolon-joined matches,
guarded exactly as in the source (`if constraints_text:` and
`if ranges:`, both defaulting to the empty string). -/
def rangesString (constraints_text : String) : String :=
  if constraints_text = "" then ""
  else
    let ranges := rangesList constraints_text
    if ranges.isEmpty then "" else joinWith "; " ranges

/-! ## The improved pipeline (`extract_all_problems_improved.py`) -/

/-- `extract_from_comments(soup)`: clean each comment's re-parsed content
and keep the fragments longer than 20 characters, joined by spaces.
(The per-comment `try/except` cannot fire in the model: re-parsing is
total here; a failing comment would simply contribute nothing.) -/
def extract_from_comments (root : Node) : String :=
  joinWith " " ((commentNodesIn root).filterMap fun n =>
    match n with
    | .comment _ parsed =>
      let text := clean_html_nodes parsed
      if text ≠ "" ∧ text.length > 20 then some text else none
    | _ => none)

/-- The `h3` heading whose `.string` is exactly `"Problem Statement"`. -/
def psH3Pred (n : Node) : Bool :=
  n.tagOf == some "h3" && nodeString n == some "Problem Statement"

/-- Title strategy 1: the first `h1`, if its text is nonempty after
stripping; the result is its cleaned text. -/
def titleStrategy1 (root : Node) : Option String :=
  match findFirstIn (fun n => n.tagOf == some "h1") root with
  | none => none
  | some h1 => if pyStrip (getText h1) ≠ "" then some (clean_html_text h1) else none

/-- Title strategy 2: the first suitable line of the text of the parent of
an `h3` labelled `Problem Statement`. -/
def titleStrategy2 (root : Node) : Option String :=
  match findParentIn psH3Pred root with
  | none => none
  | some parent =>
    let title_text := pyStrip (getText parent)
    (pySplitChar '\n' title_text.data).findSome? fun line =>
      let ls := pyStripL line
      if !ls.isEmpty && !containsAux "Problem Statement".data line && ls.length < 100
      then some (⟨ls⟩ : String) else none

/-- The stoplist of title strategy 3. -/
def titleStopList : List String :=
  ["Input", "Output", "Constraints", "Sample Input", "Sample Output"]

/-- Title strategy 3: the first heading-like node (`h1`/`h2`/`h3`/`title`)
whose stripped text is nonempty, under 100 characters and not in the
stoplist. -/
def titleStrategy3 (root : Node) : Option String :=
  (findAllIn (fun n =>
      n.tagOf == some "h1" || n.tagOf == some "h2" ||
      n.tagOf == some "h3" || n.tagOf == some "title") root).findSome? fun tag =>
    let text := pyStrip (getText tag)
    if text ≠ "" ∧ text.length < 100 ∧ ¬ text ∈ titleStopList then some text else none

/-- Title strategy 4: the first short fragment (split on the Japanese full
stop) of the harvested comment content, among the first three. -/
def titleStrategy4 (root : Node) : Option String :=
  let comment_content := extract_from_comments root
  if comment_content = "" then none
  else
    ((pySplitChar '。' comment_content.data).take 3).findSome? fun line =>
      let ls := pyStripL line
      if !ls.isEmpty && ls.length < 200 then some (⟨ls⟩ : String) else none

/-- `extract_title_flexible`: the four-strategy cascade, defaulting to the
empty string. -/
def extract_title_flexible (root : Node) : String :=
  match titleStrategy1 root with
  | some t => t
  | none =>
    match titleStrategy2 root with
    | some t => t
    | none =>
      match titleStrategy3 root with
      | some t => t
      | none => (titleStrategy4 root).getD ""

/-- The first `h2`/`h3` whose `.string` matches
`(Input|Constraints|入力|制約)` case-insensitively. -/
def firstSectionPred (n : Node) : Bool :=
  (n.tagOf == some "h2" || n.tagOf == some "h3") &&
    (match nodeString n with
     | some s =>
       strContainsCI s "Input" || strContainsCI s "Constraints" ||
       strContainsCI s "入力" || strContainsCI s "制約"
     | none => false)

/-- The four words that exclude a paragraph from the description. -/
def sectionWords : List String := ["Input", "Output", "Constraints", "Sample"]

/-- Description strategy 1 of the improved pipeline: if some
Input/Constraints heading exists, collect the stripped text of every
`p`/`div` under `body` (or the whole soup when there is no `body`) that is
nonempty and mentions none of the section words. -/
def directDescParts (root : Node) : List String :=
  match findFirstIn firstSectionPred root with
  | none => []
  | some _ =>
    let current := (findFirstIn (fun n => n.tagOf == some "body") root).getD root
    (findAllIn (fun n => n.tagOf == some "p" || n.tagOf == some "div") current).filterMap
      fun element =>
        let t := getText element
        if pyStrip t ≠ "" ∧ ¬ sectionWords.any (fun w => strContains t w)
        then some (pyStrip t) else none

/-- Predicate for `find_next(["h3", "hr"])`. -/
def h3hrPred (n : Node) : Bool := n.tagOf == some "h3" || n.tagOf == some "hr"

/-- The `next_sibling` walk of description strategy 3: collect stripped
text until the sibling that structurally equals `next_section` (a `None`
stop marker never matches, so the walk runs to the end). -/
def psWalk (stop : Option Node) : List Node → List String
  | [] => []
  | n :: ns =>
    if (match stop with | some t => nodeEq n t | none => false) then []
    else
      let tx := pyStrip (pageText n)
      if tx = "" then psWalk stop ns else tx :: psWalk stop ns

/-- Description strategy 3 of the improved pipeline (AtCoder style):
siblings of the `Problem Statement` heading up to its `find_next` `h3` or
`hr`. -/
def problemStatementParts (root : Node) : List String :=
  match findNextIn psH3Pred [] root with
  | none => []
  | some (_, sibs, nextEls) => psWalk ((nextEls.filter h3hrPred).head?) sibs

/-- The `while` loop of the section scan: accumulate stripped sibling text
until the next `h2`/`h3`. -/
def collectUntilH23 : List Node → List String
  | [] => []
  | n :: ns =>
    if (match n with | .elem t _ => pyLower t == "h2" || pyLower t == "h3" | _ => false)
    then []
    else
      let tx := pyStrip (pageText n)
      if tx = "" then collectUntilH23 ns else tx :: collectUntilH23 ns

/-- One synonym attempt of the section scan: find an `h2`/`h3` whose
`.string` contains the synonym case-insensitively and return the joined
sibling content if nonempty. -/
def findHeadingContent (root : Node) (name : String) : Option String :=
  match findWithSibsIn (fun n =>
      (n.tagOf == some "h2" || n.tagOf == some "h3") &&
      (match nodeString n with | some s => strContainsCI s name | none => false)) root with
  | none => none
  | some (_, sibs) =>
    let parts := collectUntilH23 sibs
    if parts.isEmpty then none else some (joinWith " " parts)

/-- The `section_mappings` table, in source order. -/
def section_mappings : List (String × List String) :=
  [("input", ["Input", "入力", "input"]),
   ("output", ["Output", "出力", "output"]),
   ("constraints", ["Constraints", "制約", "constraints"]),
   ("sample input", ["Sample Input", "Sample Input 1", "入力例", "sample input"]),
   ("sample output", ["Sample Output", "Sample Output 1", "出力例", "sample output"])]

/-- The section-scan loop: for each canonical key, the first synonym that
yields nonempty content fills the key. -/
def sectionFold (root : Node) (m : SectionMap) : SectionMap :=
  section_mappings.foldl (fun acc kv =>
    match kv.2.findSome? (findHeadingContent root) with
    | some content => smSet acc kv.1 content
    | none => acc) m

/-- `extract_sections_from_html_improved`. -/
def extract_sections_from_html_improved (root : Node) : SectionMap :=
  let title := extract_title_flexible root
  let s1 : SectionMap := if title ≠ "" then smSet [] "title" title else []
  let direct := directDescParts root
  let withComments :=
    if (joinWith " " direct).length < 50 then
      let comment_content := extract_from_comments root
      if comment_content ≠ "" then direct ++ [comment_content] else direct
    else direct
  let description_parts := withComments ++ problemStatementParts root
  let s2 := smSet s1 "description" (joinWith " " description_parts)
  sectionFold root s2

/-- `extract_examples_improved`: the `sample input`/`sample output` pair
(falling back to `input`/`output` for a missing key), emitted as a single
stripped sample case when both are truthy. -/
def extract_examples_improved (sections : SectionMap) : List SampleCase :=
  let input_text := (smGet sections "sample input").getD ((smGet sections "input").getD "")
  let output_text := (smGet sections "sample output").getD ((smGet sections "output").getD "")
  if input_text ≠ "" ∧ output_text ≠ "" then
    [{ input := pyStrip input_text, output := pyStrip output_text, explanation := "" }]
  else []

/-- `easy_keywords` of the improved pipeline. -/
def easy_keywords : List String :=
  ["sum", "count", "simple", "basic", "digit", "print", "calculate", "find"]

/-- `medium_keywords` of the improved pipeline. -/
def medium_keywords : List String :=
  ["algorithm", "sort", "search", "tree", "graph", "dynamic", "optimal", "sequence"]

/-- `hard_keywords` of the improved pipeline. -/
def hard_keywords : List String :=
  ["complex", "advanced", "polynomial", "exponential", "combinatorial", "optimization"]

/-- `sum(1 for kw in kws if kw in content)`. -/
def countKw (kws : List String) (content : String) : Nat :=
  (kws.filter fun kw => strContains content kw).length

/-- `assess_difficulty_improved`.  The magnitude heuristic is the source's
`if`/`elif`: the medium bump applies only when the hard markers are
absent. -/
def assess_difficulty_improved (sections : SectionMap) (problem_id : String) : String :=
  let content := pyLower (joinWith " "
    [(smGet sections "title").getD "", (smGet sections "description").getD "",
     (smGet sections "constraints").getD ""])
  let problem_num := parseProblemNum problem_id
  let easy_score := countKw easy_keywords content
  let medium_score := countKw medium_keywords content
  let hard_score := countKw hard_keywords content
  let constraints_text := (smGet sections "constraints").getD ""
  let hardMark := strContains constraints_text "10^9" || strContains constraints_text "10^8"
  let mediumMark := strContains constraints_text "10^6" || strContains constraints_text "10^5"
  let hard_score2 := if hardMark then hard_score + 2 else hard_score
  let medium_score2 := if !hardMark && mediumMark then medium_score + 1 else medium_score
  if hard_score2 > 0 ∨ problem_num > 3500 then "Hard"
  else if medium_score2 > easy_score ∨ problem_num > 2000 then "Medium"
  else "Easy"

/-- The category table of the improved pipeline, in source order. -/
def categories_improved : List (String × List String) :=
  [("Arrays & Strings", ["array", "string", "text", "character", "sequence", "list"]),
   ("Math & Logic", ["math", "number", "digit", "calculate", "formula", "equation", "arithmetic"]),
   ("Geometry", ["triangle", "circle", "coordinate", "distance", "angle", "geometry", "point"]),
   ("Sorting & Searching", ["sort", "search", "find", "order", "binary search", "maximum", "minimum"]),
   ("Dynamic Programming", ["dynamic", "dp", "optimization", "optimal", "recursive"]),
   ("Trees & Graphs", ["tree", "graph", "node", "edge", "path", "traversal", "connected"]),
   ("Greedy Algorithms", ["greedy", "optimal choice", "interval"]),
   ("Simulation", ["simulate", "game", "step", "process", "move"]),
   ("Implementation", ["implement", "program", "algorithm", "output", "print"])]

/-- The strict-argmax loop shared by both categorisers: the first category
whose score strictly exceeds all earlier ones wins, defaulting to
`Implementation`. -/
def bestCategory (cats : List (String × List String)) (content : String) : String :=
  (cats.foldl (fun best kv =>
    let score := countKw kv.2 content
    if score > best.2 then (kv.1, score) else best) ("Implementation", 0)).1

/-- `categorize_problem_improved`. -/
def categorize_problem_improved (sections : SectionMap) : String :=
  bestCategory categories_improved (pyLower (joinWith " "
    [(smGet sections "title").getD "", (smGet sections "description").getD ""]))

/-- The tag table of the improved pipeline, in source order. -/
def tag_keywords_improved : List (String × List String) :=
  [("array", ["array", "list", "sequence"]),
   ("string", ["string", "text", "character"]),
   ("math", ["math", "number", "calculation", "arithmetic"]),
   ("geometry", ["triangle", "circle", "coordinate", "geometry"]),
   ("sorting", ["sort", "order", "maximum", "minimum"]),
   ("graph", ["graph", "tree", "node", "path"]),
   ("simulation", ["simulate", "game", "process"]),
   ("implementation", ["implement", "program", "output"])]

/-- The tag loop shared by both pipelines: keep the tags with a keyword
hit, defaulting to `implementation`. -/
def tagsFrom (table : List (String × List String)) (content_lower : String) : List String :=
  let tags := (table.filter fun kv => kv.2.any fun kw => strContains content_lower kw).map
    Prod.fst
  if tags.isEmpty then ["implementation"] else tags

/-- Lines 264-266 of the improved script: substitute the synthetic title
`"Problem " + problem_id` when no truthy title was extracted. -/
def sectionsWithSynthetic (root : Node) (problem_id : String) : SectionMap :=
  let sections := extract_sections_from_html_improved root
  if (smGet sections "title").getD "" = "" then
    smSet sections "title" ("Problem " ++ problem_id)
  else sections

/-- The sequential confidence computation of the improved script
(`0.5`, then `+0.1` truthy title, `+0.2` description present and longer
than 50, `+0.2` nonempty sample cases, `+0.1` truthy constraints, capped
at `1.0`). -/
def confidenceOf (sections2 : SectionMap) (examples : List SampleCase) : ℚ :=
  let confidence0 : ℚ := 1/2
  let confidence1 :=
    if (smGet sections2 "title").getD "" ≠ "" then confidence0 + 1/10 else confidence0
  let confidence2 :=
    if (smGet sections2 "description").getD "" ≠ "" ∧
        ((smGet sections2 "description").getD "").length > 50
    then confidence1 + 1/5 else confidence1
  let confidence3 := if examples ≠ [] then confidence2 + 1/5 else confidence2
  let confidence4 :=
    if (smGet sections2 "constraints").getD "" ≠ "" then confidence3 + 1/10 else confidence3
  min confidence4 1

/-- The record assembly of the improved script, over the post-synthetic
section map. -/
def assembleProblem (sections2 : SectionMap) (problem_id : String) : Problem :=
  let examples := extract_examples_improved sections2
  let constraints_text := (smGet sections2 "constraints").getD ""
  { questionId := problem_id,
    title := (smGet sections2 "title").getD ("Problem " ++ problem_id),
    description := (smGet sections2 "description").getD "",
    difficulty := assess_difficulty_improved sections2 problem_id,
    category := categorize_problem_improved sections2,
    tags := tagsFrom tag_keywords_improved (pyLower
      ((smGet sections2 "description").getD "" ++ " " ++ (smGet sections2 "title").getD "")),
    constraintsDescription := constraints_text,
    ranges := rangesString constraints_text,
    sampleCases := examples,
    confidence := confidenceOf sections2 examples }

/-- The body of `extract_problem_improved` after the raw-emptiness check:
section extraction, the insufficient-content rejection, the synthetic
title, the derived attributes, and the record assembly. -/
def extractCore (root : Node) (problem_id : String) : Option Problem :=
  let sections := extract_sections_from_html_improved root
  if (smGet sections "title").getD "" = "" ∧ (smGet sections "description").getD "" = ""
  then none
  else some (assembleProblem (sectionsWithSynthetic root problem_id) problem_id)

/-- `extract_problem_improved` on a successfully read document: the
whitespace-only short-circuit followed by the extraction body.  The
`problem_id` parameter stands for `Path(file_path).stem`. -/
def extract_problem_improved (doc : Doc) (problem_id : String) : Option Problem :=
  if pyStrip doc.raw = "" then none else extractCore doc.dom problem_id

/-- The outcome of running one document's extraction body in Python:
either a value or a raised exception carrying its message. -/
inductive PyResult (α : Type) where
  | ok (val : α)
  | exn (msg : String)

/-- The `try`/`except Exception` boundary shared by both entry points:
an exception from the body is mapped to `None` plus one printed
diagnostic line naming the offending file. -/
def extractBoundary (file_path : String) (body : PyResult (Option Problem)) :
    Option Problem × List String :=
  match body with
  | .ok r => (r, [])
  | .exn msg => (none, ["Error processing " ++ file_path ++ ": " ++ msg])

/-! ## The original pipeline (`extract_all_problems.py`) -/

/-- The description/section `while` loop of the original pipeline: collect
stripped node text until the next `h2` (strings and comments contribute
via the `isinstance(current, str)` branch). -/
def oldWalkUntilH2 : List Node → List String
  | [] => []
  | n :: ns =>
    if (match n with | .elem t _ => pyLower t == "h2" | _ => false) then []
    else
      let tx := pyStrip (pageText n)
      if tx = "" then oldWalkUntilH2 ns else tx :: oldWalkUntilH2 ns

/-- The description start of the original pipeline: the siblings after the
`h1` when there is one, otherwise the `body` node itself followed by its
siblings, otherwise nothing. -/
def oldDescParts (root : Node) : List String :=
  match findWithSibsIn (fun n => n.tagOf == some "h1") root with
  | some (_, sibs) => oldWalkUntilH2 sibs
  | none =>
    match findWithSibsIn (fun n => n.tagOf == some "body") root with
    | some (body, sibs) => oldWalkUntilH2 (body :: sibs)
    | none => []

/-- `extract_sections_from_html`: `h1` title (set whenever an `h1` exists,
even with empty text), leading description, and one lowercased section per
`h2` heading (the loop's initial `sections[name] = ""` is immediately
overwritten by the joined content, so the net effect is a single
assignment). -/
def extract_sections_from_html (root : Node) : SectionMap :=
  let s1 : SectionMap :=
    match findFirstIn (fun n => n.tagOf == some "h1") root with
    | some h1 => smSet [] "title" (clean_html_text h1)
    | none => []
  let s2 := smSet s1 "description" (joinWith " " (oldDescParts root))
  (findAllWithSibsIn (fun n => n.tagOf == some "h2") root).foldl
    (fun acc h2s =>
      smSet acc (pyLower (clean_html_text h2s.1)) (joinWith " " (oldWalkUntilH2 h2s.2)))
    s2

/-- `extract_examples_from_sections`: keys containing `sample input` pair
positionally with keys containing `output for` or `sample output`; surplus
inputs get an empty output; a pair is kept when either side is nonempty
after stripping. -/
def extract_examples_from_sections (sections : SectionMap) : List SampleCase :=
  let sample_input_keys :=
    (sections.map Prod.fst).filter fun k => strContains (pyLower k) "sample input"
  let sample_output_keys :=
    (sections.map Prod.fst).filter fun k =>
      strContains (pyLower k) "output for" || strContains (pyLower k) "sample output"
  sample_input_keys.enum.filterMap fun ik =>
    let input_text := pyStrip ((smGet sections ik.2).getD "")
    let output_text :=
      match sample_output_keys.get? ik.1 with
      | some ok2 => pyStrip ((smGet sections ok2).getD "")
      | none => ""
    if input_text ≠ "" ∨ output_text ≠ "" then
      some { input := input_text, output := output_text, explanation := "" }
    else none

/-- The constraints text of the original pipeline: the value of the first
key containing `constraint` (case-insensitively), else empty. -/
def oldConstraintsText (sections : SectionMap) : String :=
  ((sections.find? fun kv => strContains (pyLower kv.1) "constraint").map Prod.snd).getD ""

/-- `easy_indicators` of the original pipeline. -/
def easy_indicators : List String :=
  ["sum", "count", "simple", "basic", "digit", "triangle", "maximum", "minimum"]

/-- `medium_indicators` of the original pipeline. -/
def medium_indicators : List String :=
  ["algorithm", "sort", "search", "tree", "graph", "dynamic", "optimization"]

/-- `hard_indicators` of the original pipeline. -/
def hard_indicators : List String :=
  ["complex", "advanced", "polynomial", "np-hard", "exponential", "combinatorial"]

/-- `assess_difficulty` of the original pipeline: keyword scores over the
lowercased description-plus-title only (no constraint-magnitude
heuristic), with identifier thresholds 3000 and 1000. -/
def assess_difficulty (sections : SectionMap) (problem_id : String) : String :=
  let description_lower := pyLower
    ((smGet sections "description").getD "" ++ " " ++ (smGet sections "title").getD "")
  let easy_score := countKw easy_indicators description_lower
  let medium_score := countKw medium_indicators description_lower
  let hard_score := countKw hard_indicators description_lower
  let problem_num := parseProblemNum problem_id
  if hard_score > 0 ∨ problem_num > 3000 then "Hard"
  else if medium_score > easy_score ∨ problem_num > 1000 then "Medium"
  else "Easy"

/-- The category table of the original pipeline, in source order. -/
def categories_original : List (String × List String) :=
  [("Arrays & Strings", ["array", "string", "text", "character", "sequence"]),
   ("Math & Logic", ["math", "number", "digit", "calculate", "formula", "equation"]),
   ("Geometry", ["triangle", "circle", "coordinate", "distance", "angle", "geometry"]),
   ("Sorting & Searching", ["sort", "search", "find", "order", "binary search"]),
   ("Dynamic Programming", ["dynamic", "dp", "optimization", "maximum", "minimum"]),
   ("Trees & Graphs", ["tree", "graph", "node", "edge", "path", "traversal"]),
   ("Greedy Algorithms", ["greedy", "optimal", "choice"]),
   ("Simulation", ["simulate", "game", "step", "process"]),
   ("Implementation", ["implement", "program", "algorithm"])]

/-- `categorize_problem` of the original pipeline (content is description
then title). -/
def categorize_problem (sections : SectionMap) : String :=
  bestCategory categories_original (pyLower
    ((smGet sections "description").getD "" ++ " " ++ (smGet sections "title").getD ""))

/-- The tag table of the original pipeline, in source order. -/
def tag_keywords_original : List (String × List String) :=
  [("array", ["array", "list"]),
   ("string", ["string", "text", "character"]),
   ("math", ["math", "number", "calculation"]),
   ("geometry", ["triangle", "circle", "coordinate"]),
   ("sorting", ["sort", "order"]),
   ("graph", ["graph", "tree", "node"]),
   ("simulation", ["simulate", "game"]),
   ("implementation", ["implement", "program"])]

/-- `extract_problem_from_html_file` on a successfully read document: the
whitespace-only short-circuit, section extraction, rejection whenever no
truthy title was found, and the record assembly (including the literal
`Problem F: ` / `Problem A: ` replacements on the title and the two-level
confidence). -/
def extract_problem_from_html_file (doc : Doc) (problem_id : String) : Option Problem :=
  if pyStrip doc.raw = "" then none else
  let sections := extract_sections_from_html doc.dom
  if (smGet sections "title").getD "" = "" then none
  else
    let examples := extract_examples_from_sections sections
    let constraints_text := oldConstraintsText sections
    let difficulty := assess_difficulty sections problem_id
    let category := categorize_problem sections
    let content_lower := pyLower
      ((smGet sections "description").getD "" ++ " " ++ (smGet sections "title").getD "")
    let tags := tagsFrom tag_keywords_original content_lower
    some { questionId := problem_id,
           title := pyReplace (pyReplace ((smGet sections "title").getD
               ("Problem " ++ problem_id)) "Problem F: " "") "Problem A: " "",
           description := (smGet sections "description").getD "",
           difficulty := difficulty,
           category := category,
           tags := tags,
           constraintsDescription := constraints_text,
           ranges := rangesString constraints_text,
           sampleCases := examples,
           confidence :=
             if (smGet sections "description").getD "" ≠ "" ∧ examples ≠ [] then 4/5
             else 3/5 }

/-! ## Specification-side definitions

These definitions follow the wording of the specification claims (not the
source); the theorems below compare them with the embedded code. -/

/-- The confidence formula as the specification states it: `0.5`, plus
`0.1` if a title is present, plus `0.2` if a description is present and
longer than 50 characters, plus `0.2` if at least one example pair was
extracted, plus `0.1` if constraints text is present, capped at `1.0`. -/
def confidenceScore (t d e c : Bool) : ℚ :=
  min (1/2 + (if t then (1:ℚ)/10 else 0) + (if d then (1:ℚ)/5 else 0) +
       (if e then (1:ℚ)/5 else 0) + (if c then (1:ℚ)/10 else 0)) 1

/-- The reporting buckets of the improved script's `main` (`high ≥ 0.8`,
`medium ≥ 0.6`, `low` otherwise). -/
def confidenceBucket (c : ℚ) : String :=
  if c ≥ 4/5 then "high" else if c ≥ 3/5 then "medium" else "low"

/-- The difficulty procedure exactly as claim C8 words it, instantiated
with the improved pipeline's keyword sets and thresholds: the `10^9`/`10^8`
markers add 2 to the hard score and the `10^6`/`10^5` markers add 1 to the
medium score (each unconditionally), then hard when the hard score is
positive or the identifier number exceeds 3500, else medium when the
medium score strictly exceeds the easy score or the identifier number
exceeds 2000, else easy. -/
def claimed_difficulty_improved (sections : SectionMap) (problem_id : String) : String :=
  let content := pyLower (joinWith " "
    [(smGet sections "title").getD "", (smGet sections "description").getD "",
     (smGet sections "constraints").getD ""])
  let problem_num := parseProblemNum problem_id
  let constraints_text := (smGet sections "constraints").getD ""
  let easy_score := countKw easy_keywords content
  let medium_score := countKw medium_keywords content +
    (if strContains constraints_text "10^6" || strContains constraints_text "10^5"
     then 1 else 0)
  let hard_score := countKw hard_keywords content +
    (if strContains constraints_text "10^9" || strContains constraints_text "10^8"
     then 2 else 0)
  if hard_score > 0 ∨ problem_num > 3500 then "Hard"
  else if medium_score > easy_score ∨ problem_num > 2000 then "Medium"
  else "Easy"

/-- The same claimed procedure instantiated with the original pipeline's
keyword sets, content (description plus title) and thresholds 3000/1000;
claim C8 asserts this for the original classifier as well. -/
def claimed_difficulty_original (sections : SectionMap) (problem_id : String) : String :=
  let description_lower := pyLower
    ((smGet sections "description").getD "" ++ " " ++ (smGet sections "title").getD "")
  let problem_num := parseProblemNum problem_id
  let constraints_text := (smGet sections "constraints").getD ""
  let easy_score := countKw easy_indicators description_lower
  let medium_score := countKw medium_indicators description_lower +
    (if strContains constraints_text "10^6" || strContains constraints_text "10^5"
     then 1 else 0)
  let hard_score := countKw hard_indicators description_lower +
    (if strContains constraints_text "10^9" || strContains constraints_text "10^8"
     then 2 else 0)
  if hard_score > 0 ∨ problem_num > 3000 then "Hard"
  else if medium_score > easy_score ∨ problem_num > 1000 then "Medium"
  else "Easy"

/-! ## Helper lemmas -/

theorem smGet_smSet_self (m : SectionMap) (k v : String) :
    smGet (smSet m k v) k = some v := by
  induction m with
  | nil => simp [smSet, smGet]
  | cons kv rest ih =>
    by_cases h : kv.1 = k
    · simp [smSet, smGet, h]
    · simp [smSet, smGet, h, ih]

theorem smGet_smSet_ne (m : SectionMap) (k k2 v : String) (h : k ≠ k2) :
    smGet (smSet m k v) k2 = smGet m k2 := by
  induction m with
  | nil => simp [smSet, smGet, h]
  | cons kv rest ih =>
    by_cases h2 : kv.1 = k
    · simp [smSet, smGet, h2, h, Ne.symm h]
    · by_cases h3 : kv.1 = k2 <;> simp [smSet, smGet, h2, h3, Ne.symm h, ih]

theorem smGet_foldHeading (root : Node) (k : String) :
    ∀ (l : List (String × List String)) (m : SectionMap), (∀ kv ∈ l, kv.1 ≠ k) →
      smGet (l.foldl (fun acc kv =>
        match kv.2.findSome? (findHeadingContent root) with
        | some content => smSet acc kv.1 content
        | none => acc) m) k = smGet m k := by
  intro l
  induction l with
  | nil => intro m _; rfl
  | cons kv rest ih =>
    intro m hk
    simp only [List.foldl_cons]
    cases hfs : kv.2.findSome? (findHeadingContent root) with
    | none =>
      simp only [hfs]
      exact ih _ (fun x hx => hk x (List.mem_cons_of_mem _ hx))
    | some content =>
      simp only [hfs]
      rw [ih _ (fun x hx => hk x (List.mem_cons_of_mem _ hx))]
      exact smGet_smSet_ne _ _ _ _ (hk kv (List.mem_cons_self _ _))

theorem smGet_sectionFold (root : Node) (m : SectionMap) (k : String)
    (hk : ∀ kv ∈ section_mappings, kv.1 ≠ k) :
    smGet (sectionFold root m) k = smGet m k := by
  unfold sectionFold
  exact smGet_foldHeading root k section_mappings m hk

theorem smGet_sections_improved_title (root : Node) :
    smGet (extract_sections_from_html_improved root) "title" =
      if extract_title_flexible root ≠ "" then some (extract_title_flexible root)
      else none := by
  unfold extract_sections_from_html_improved
  rw [smGet_sectionFold _ _ _ (by decide)]
  by_cases h : extract_title_flexible root ≠ ""
  · rw [if_pos h, if_pos h, smGet_smSet_ne _ _ _ _ (by decide), smGet_smSet_self]
  · rw [if_neg h, if_neg h, smGet_smSet_ne _ _ _ _ (by decide)]
    rfl

theorem smGet_sections_improved_desc (root : Node) :
    smGet (extract_sections_from_html_improved root) "description" =
      some (joinWith " "
        ((if (joinWith " " (directDescParts root)).length < 50 then
            (if extract_from_comments root ≠ "" then
              directDescParts root ++ [extract_from_comments root]
            else directDescParts root)
          else directDescParts root) ++ problemStatementParts root)) := by
  unfold extract_sections_from_html_improved
  rw [smGet_sectionFold _ _ _ (by decide), smGet_smSet_self]

theorem problem_title_ne (s : String) : "Problem " ++ s ≠ "" := by
  intro hh
  have h2 : ("Problem " ++ s).data = "".data := congrArg String.data hh
  rw [String.data_append] at h2
  simp at h2

theorem smGet_synthetic_title (root : Node) (problem_id : String) :
    ∃ t, smGet (sectionsWithSynthetic root problem_id) "title" = some t ∧ t ≠ "" := by
  unfold sectionsWithSynthetic
  by_cases h : (smGet (extract_sections_from_html_improved root) "title").getD "" = ""
  · rw [if_pos h, smGet_smSet_self]
    exact ⟨_, rfl, problem_title_ne problem_id⟩
  · rw [if_neg h]
    cases hh : smGet (extract_sections_from_html_improved root) "title" with
    | none => exact absurd (by rw [hh]; rfl) h
    | some t => exact ⟨t, rfl, fun ht => h (by rw [hh, ht]; rfl)⟩

theorem synthetic_keeps (root : Node) (problem_id k : String) (hk : k ≠ "title") :
    smGet (sectionsWithSynthetic root problem_id) k =
      smGet (extract_sections_from_html_improved root) k := by
  unfold sectionsWithSynthetic
  by_cases h : (smGet (extract_sections_from_html_improved root) "title").getD "" = ""
  · rw [if_pos h, smGet_smSet_ne _ _ _ _ (fun hh => hk hh.symm)]
  · rw [if_neg h]

theorem confidenceOf_eq_score (m : SectionMap) (ex : List SampleCase) :
    confidenceOf m ex =
      confidenceScore (decide ((smGet m "title").getD "" ≠ ""))
        (decide ((smGet m "description").getD "" ≠ "" ∧
          ((smGet m "description").getD "").length > 50))
        (decide (ex ≠ [])) (decide ((smGet m "constraints").getD "" ≠ "")) := by
  unfold confidenceOf confidenceScore
  by_cases h1 : (smGet m "title").getD "" ≠ "" <;>
    by_cases h2 : (smGet m "description").getD "" ≠ "" ∧
      ((smGet m "description").getD "").length > 50 <;>
    by_cases h3 : ex ≠ [] <;>
    by_cases h4 : (smGet m "constraints").getD "" ≠ "" <;>
    simp [h1, h2, h3, h4, decide_eq_true_eq]

theorem startsWithL_self (pat rest : List Char) : startsWithL pat (pat ++ rest) = true := by
  induction pat with
  | nil => rfl
  | cons a ps ih => simp [startsWithL, ih]

theorem containsAux_nilpat (l : List Char) : containsAux [] l = true := by
  cases l <;> simp [containsAux, startsWithL]

theorem containsAux_append (a pat b : List Char) : containsAux pat (a ++ (pat ++ b)) = true := by
  induction a with
  | nil =>
    cases pat with
    | nil => exact containsAux_nilpat _
    | cons p ps =>
      simp only [List.nil_append, containsAux, Bool.or_eq_true]
      exact Or.inl (startsWithL_self (p :: ps) b)
  | cons x xs ih => simp [containsAux, ih]

theorem bucket_not_low (c : ℚ) (h : 3/5 ≤ c) : confidenceBucket c ≠ "low" := by
  unfold confidenceBucket
  split_ifs <;> simp_all

theorem pyStrip_of_all_space (s : String) (h : s.data.all isPySpace) : pyStrip s = "" := by
  unfold pyStrip pyStripL
  have h1 : s.data.dropWhile isPySpace = [] := by
    rw [List.dropWhile_eq_nil_iff]
    intro x hx
    exact List.all_eq_true.mp h x hx
  rw [h1]
  rfl

/-! ## Concrete documents used by witnesses and counterexamples -/

/-- A document with an `h1`, a `Constraints` heading and one constraint
line (the spec's `p00001` scenario, shortened). -/
def docAdd : Doc :=
  ⟨"x", .elem "[document]" [.elem "body" [
    .elem "h1" [.text "Add"],
    .elem "h2" [.text "Constraints"],
    .elem "p" [.text "1 ≤ N ≤ 100"]]]⟩

/-- A document with no `h1` but a recoverable description (a paragraph
before an `Input` heading). -/
def docDescOnly : Doc :=
  ⟨"x", .elem "[document]" [.elem "body" [
    .elem "p" [.text "A sufficiently long description of the task."],
    .elem "h2" [.text "Input"]]]⟩

/-- A document whose only `h1` text carries the `Problem A: ` prefix. -/
def docPrefixedTitle : Doc :=
  ⟨"x", .elem "[document]" [.elem "h1" [.text "Problem A: Sum"]]⟩

/-- A document with a short direct description, an `Input` heading, and a
long comment (triggers the sparse-content comment fallback). -/
def docSparse : Doc :=
  ⟨"x", .elem "[document]" [.elem "body" [
    .comment " This is a hidden description, quite long indeed. "
      [.text "This is a hidden description, quite long indeed."],
    .elem "p" [.text "Short intro."],
    .elem "h2" [.text "Input"]]]⟩

/-- A section map with two `sample input` keys and one `sample output`
key. -/
def mapTwoSamples : SectionMap :=
  [("sample input", "1 2"), ("sample input 2", "3 4"), ("sample output", "3")]

/-- A section map with exactly the two sample keys, padded with
whitespace. -/
def mapOneSample : SectionMap :=
  [("sample input", " 1 2 "), ("sample output", "3 ")]

/-! ## Claim theorems -/

/-- C1: the extraction entry points never raise: the `try`/`except`
boundary maps every body outcome to a plain value, and a raised exception
becomes `None` together with one diagnostic line that contains the
offending source path. -/
theorem C1_boundary_never_raises (file_path : String) (body : PyResult (Option Problem)) :
    (∀ r, body = .ok r → extractBoundary file_path body = (r, [])) ∧
    (∀ msg, body = .exn msg →
      (extractBoundary file_path body).1 = none ∧
      ∃ d, (extractBoundary file_path body).2 = [d] ∧ strContains d file_path = true) := by
  constructor
  · intro r h; subst h; rfl
  · intro msg h; subst h
    refine ⟨rfl, "Error processing " ++ file_path ++ ": " ++ msg, rfl, ?_⟩
    unfold strContains
    have hd : ("Error processing " ++ file_path ++ ": " ++ msg).data
        = "Error processing ".data ++ (file_path.data ++ (": " ++ msg).data) := by
      simp [String.data_append]
    rw [hd]
    exact containsAux_append _ _ _

/-- Witness for C1: a concrete faulting body is absorbed with a
diagnostic naming the file. -/
theorem C1_boundary_never_raises_witness :
    (extractBoundary "p00007.html" (PyResult.exn "boom")).1 = none ∧
    ∃ d, (extractBoundary "p00007.html" (PyResult.exn "boom")).2 = [d] ∧
      strContains d "p00007.html" = true :=
  (C1_boundary_never_raises "p00007.html" (PyResult.exn "boom")).2 "boom" rfl

/-- C2: a document whose raw text is empty or whitespace-only is rejected
(`None`) by both entry points before any parsing-derived work. -/
theorem C2_blank_input_absent (doc : Doc) (pid pid2 : String)
    (h : doc.raw.data.all isPySpace) :
    extract_problem_improved doc pid = none ∧
    extract_problem_from_html_file doc pid2 = none := by
  have hs : pyStrip doc.raw = "" := pyStrip_of_all_space _ h
  refine ⟨?_, ?_⟩
  · unfold extract_problem_improved
    rw [if_pos hs]
  · unfold extract_problem_from_html_file
    rw [if_pos hs]

/-- Witness for C2 on a whitespace-only raw document. -/
theorem C2_blank_input_absent_witness :
    extract_problem_improved ⟨" \n\t", .elem "[document]" []⟩ "p00001" = none ∧
    extract_problem_from_html_file ⟨" \n\t", .elem "[document]" []⟩ "p00001" = none :=
  C2_blank_input_absent ⟨" \n\t", .elem "[document]" []⟩ "p00001" "p00001" (by decide)

/-- C3 (amended): with nonempty raw text, the improved pipeline returns
absence exactly when neither a truthy title nor a truthy description is in
the section map, whereas the original pipeline returns absence exactly
when no truthy title is there — the recoverable description does not save
a document in the original pipeline. -/
theorem C3_rejection_condition (doc : Doc) (pid : String) (hraw : pyStrip doc.raw ≠ "") :
    (extract_problem_improved doc pid = none ↔
      ((smGet (extract_sections_from_html_improved doc.dom) "title").getD "" = "" ∧
       (smGet (extract_sections_from_html_improved doc.dom) "description").getD "" = "")) ∧
    (extract_problem_from_html_file doc pid = none ↔
      (smGet (extract_sections_from_html doc.dom) "title").getD "" = "") := by
  constructor
  · unfold extract_problem_improved extractCore
    rw [if_neg hraw]
    dsimp only
    split_ifs with h
    · simp [h]
    · simp [h]
  · unfold extract_problem_from_html_file
    rw [if_neg hraw]
    dsimp only
    split_ifs with h
    · simp [h]
    · simp [h]

/-- Witness for C3: a document with a description but no title is kept by
the improved pipeline and rejected by the original one. -/
theorem C3_rejection_condition_witness :
    extract_problem_improved docDescOnly "p00001" ≠ none ∧
    extract_problem_from_html_file docDescOnly "p00001" = none := by
  have h := C3_rejection_condition docDescOnly "p00001" (by decide)
  constructor
  · intro hnone
    have h2 := h.1.mp hnone
    revert h2
    decide
  · exact h.2.mpr (by decide)

/-- Counterexample for C3 as frozen: for the original entry point, a
document whose section map carries a nonempty description is still mapped
to absence, because only the title is consulted. -/
theorem C3_counterexample :
    extract_problem_from_html_file
      ⟨"x", .elem "[document]" [.elem "body" [.elem "p"
        [.text "A sufficiently long description of the task."]]]⟩ "p00001" = none ∧
    smGet (extract_sections_from_html
      (.elem "[document]" [.elem "body" [.elem "p"
        [.text "A sufficiently long description of the task."]]])) "description" =
      some "A sufficiently long description of the task." ∧
    ("A sufficiently long description of the task." : String) ≠ "" := by
  refine ⟨?_, ?_, ?_⟩ <;> decide

/-- C8 (amended): the improved difficulty classifier is extensionally the
procedure the claim describes (with thresholds 3500/2000): although the
source's `elif` skips the medium bump when a hard marker is present, the
hard branch then fires anyway, so the classification agrees with the
claim's unconditional-adds reading on every input. -/
theorem C8_difficulty_improved_matches_claim (sections : SectionMap) (problem_id : String) :
    assess_difficulty_improved sections problem_id =
      claimed_difficulty_improved sections problem_id := by
  unfold assess_difficulty_improved claimed_difficulty_improved
  by_cases h : (strContains ((smGet sections "constraints").getD "") "10^9" ||
      strContains ((smGet sections "constraints").getD "") "10^8") = true
  · simp only [h, if_true]
    rw [if_pos (Or.inl (by omega)), if_pos (Or.inl (by omega))]
  · simp only [h, if_false, Bool.not_eq_true] at *
    simp only [h, Bool.false_eq_true, if_false, Bool.not_false, Bool.true_and]
    by_cases h2 : (strContains ((smGet sections "constraints").getD "") "10^6" ||
        strContains ((smGet sections "constraints").getD "") "10^5") = true
    · simp [h2]
    · simp [h2]

/-- Counterexample for C8 as frozen: the original classifier has no
constraint-magnitude heuristic at all, so on a section map whose
constraints text contains `10^9` it answers `Easy` where the claimed
procedure answers `Hard`. -/
theorem C8_counterexample :
    assess_difficulty [("constraints", "10^9")] "p00001" = "Easy" ∧
    claimed_difficulty_original [("constraints", "10^9")] "p00001" = "Hard" := by
  refine ⟨?_, ?_⟩ <;> decide

/-- Any record the improved entry point emits is the assembled record over
the post-synthetic section map. -/
theorem improved_some_shape (doc : Doc) (pid : String) (p : Problem)
    (h : extract_problem_improved doc pid = some p) :
    p = assembleProblem (sectionsWithSynthetic doc.dom pid) pid := by
  unfold extract_problem_improved at h
  split at h
  · exact absurd h (by simp)
  · unfold extractCore at h
    dsimp only at h
    split at h
    · exact absurd h (by simp)
    · exact (Option.some.inj h).symm

/-- C7: the ranges string is the semicolon-joined concatenation of every
match of the three templates, applied in order with all matches
accumulated, for both pipelines' records; duplicates across overlapping
templates are kept (witnessed by `1 ≤ N ≤ 100`, matched once by each
template). -/
theorem C7_ranges_all_templates :
    (∀ text : String, rangesList text =
      pyFindall matchDouble text ++ (pyFindall matchUpper text ++ pyFindall matchLower text)) ∧
    (∀ text : String, rangesString text = joinWith "; " (rangesList text)) ∧
    (∀ (doc : Doc) (pid : String) (p : Problem),
      extract_problem_improved doc pid = some p →
      p.ranges = rangesString p.constraintsDescription) ∧
    (∀ (doc : Doc) (pid : String) (p : Problem),
      extract_problem_from_html_file doc pid = some p →
      p.ranges = rangesString p.constraintsDescription) ∧
    rangesString "1 ≤ N ≤ 100" = "1 100; 100; 1" := by
  refine ⟨?_, ?_, ?_, ?_, by decide⟩
  · intro text
    unfold rangesList range_patterns
    simp [List.foldl, List.append_assoc]
  · intro text
    unfold rangesString
    by_cases h0 : text = ""
    · subst h0; decide
    · rw [if_neg h0]
      dsimp only
      cases hR : rangesList text with
      | nil => simp [joinWith]
      | cons a as => simp
  · intro doc pid p h
    rw [improved_some_shape doc pid p h]
    rfl
  · intro doc pid p h
    unfold extract_problem_from_html_file at h
    split at h
    · exact absurd h (by simp)
    · dsimp only at h
      split at h
      · exact absurd h (by simp)
      · rw [(Option.some.inj h).symm]

/-- Witness for C7: the record extracted from a concrete document carries
the duplicated, order-preserving ranges string. -/
theorem C7_ranges_all_templates_witness :
    (extract_problem_improved docAdd "p00001").map Problem.ranges = some "1 100; 100; 1" := by
  have h := C7_ranges_all_templates.2.2.1 docAdd "p00001"
    (assembleProblem (sectionsWithSynthetic docAdd.dom "p00001") "p00001") rfl
  rw [show extract_problem_improved docAdd "p00001" =
    some (assembleProblem (sectionsWithSynthetic docAdd.dom "p00001") "p00001") from rfl]
  rw [Option.map_some', h]
  decide

/-- C6 (amended): the improved extractor emits exactly one stripped pair
whenever the two sample sections are present and nonempty after trimming;
the original extractor does so when these are the only sample-labelled
keys of the map (with several `sample input N` keys it emits one case per
key, positionally paired). -/
theorem C6_single_sample_pair :
    (∀ (m : SectionMap) (s t : String),
      smGet m "sample input" = some s → pyStrip s ≠ "" →
      smGet m "sample output" = some t → pyStrip t ≠ "" →
      extract_examples_improved m =
        [{ input := pyStrip s, output := pyStrip t, explanation := "" }]) ∧
    (∀ (m : SectionMap) (k k2 : String),
      ((m.map Prod.fst).filter fun key => strContains (pyLower key) "sample input") = [k] →
      ((m.map Prod.fst).filter fun key =>
        strContains (pyLower key) "output for" ||
        strContains (pyLower key) "sample output") = [k2] →
      pyStrip ((smGet m k).getD "") ≠ "" →
      extract_examples_from_sections m =
        [{ input := pyStrip ((smGet m k).getD ""),
           output := pyStrip ((smGet m k2).getD ""), explanation := "" }]) := by
  constructor
  · intro m s t hs hsne ht htne
    unfold extract_examples_improved
    rw [hs, ht]
    have hs2 : s ≠ "" := fun hh => hsne (by rw [hh]; rfl)
    have ht2 : t ≠ "" := fun hh => htne (by rw [hh]; rfl)
    rw [if_pos ⟨hs2, ht2⟩]
    rfl
  · intro m k k2 hik hok hne
    unfold extract_examples_from_sections
    rw [hik, hok]
    simp only [List.enum, List.enumFrom, List.filterMap, List.get?]
    rw [if_pos (Or.inl hne)]

/-- Witness for C6 on a map with exactly the two (whitespace-padded)
sample sections. -/
theorem C6_single_sample_pair_witness :
    extract_examples_improved mapOneSample =
      [{ input := "1 2", output := "3", explanation := "" }] ∧
    extract_examples_from_sections mapOneSample =
      [{ input := "1 2", output := "3", explanation := "" }] := by
  constructor
  · have h := C6_single_sample_pair.1 mapOneSample " 1 2 " "3 "
      (by decide) (by decide) (by decide) (by decide)
    rw [h]; decide
  · have h := C6_single_sample_pair.2 mapOneSample "sample input" "sample output"
      (by decide) (by decide) (by decide)
    rw [h]; decide

/-- Counterexample for C6 as frozen: a section map in which both sample
sections are recoverable and nonempty after trimming, yet the original
extractor emits two cases because a `sample input 2` key is also
present. -/
theorem C6_counterexample :
    smGet mapTwoSamples "sample input" = some "1 2" ∧ pyStrip "1 2" ≠ "" ∧
    smGet mapTwoSamples "sample output" = some "3" ∧ pyStrip "3" ≠ "" ∧
    extract_examples_from_sections mapTwoSamples =
      [{ input := "1 2", output := "3", explanation := "" },
       { input := "3 4", output := "", explanation := "" }] := by
  refine ⟨?_, ?_, ?_, ?_, ?_⟩ <;> decide

/-- C9 (amended): when the directly-collected description text is shorter
than 50 characters and the Comment Harvester output is nonempty, that
output is appended to (not substituted for) the directly-collected parts;
the stored description is the joined concatenation of both, plus the
Problem-Statement parts. -/
theorem C9_comment_fallback_appends (root : Node)
    (hshort : (joinWith " " (directDescParts root)).length < 50)
    (hcc : extract_from_comments root ≠ "") :
    smGet (extract_sections_from_html_improved root) "description" =
      some (joinWith " " ((directDescParts root ++ [extract_from_comments root]) ++
        problemStatementParts root)) := by
  rw [smGet_sections_improved_desc, if_pos hshort, if_pos hcc]

/-- Witness for C9 on the sparse document. -/
theorem C9_comment_fallback_appends_witness :
    smGet (extract_sections_from_html_improved docSparse.dom) "description" =
      some (joinWith " " ((directDescParts docSparse.dom ++
        [extract_from_comments docSparse.dom]) ++ problemStatementParts docSparse.dom)) :=
  C9_comment_fallback_appends docSparse.dom (by decide) (by decide)

/-- Counterexample for C9 as frozen: on the sparse document the direct
text is 12 characters, the harvester output is nonempty, and the stored
description is the direct text followed by the harvester output — not the
harvester output alone. -/
theorem C9_counterexample :
    (joinWith " " (directDescParts docSparse.dom)).length < 50 ∧
    extract_from_comments docSparse.dom =
      "This is a hidden description, quite long indeed." ∧
    smGet (extract_sections_from_html_improved docSparse.dom) "description" =
      some "Short intro. This is a hidden description, quite long indeed." ∧
    smGet (extract_sections_from_html_improved docSparse.dom) "description" ≠
      some (extract_from_comments docSparse.dom) := by
  refine ⟨?_, ?_, ?_, ?_⟩ <;> decide

/-- With the title increment granted, the confidence score lands in the
five-value grid starting at `0.6`. -/
theorem confidenceScore_true_values (d e c : Bool) :
    3/5 ≤ confidenceScore true d e c ∧
    (confidenceScore true d e c = 3/5 ∨ confidenceScore true d e c = 7/10 ∨
     confidenceScore true d e c = 4/5 ∨ confidenceScore true d e c = 9/10 ∨
     confidenceScore true d e c = 1) := by
  cases d <;> cases e <;> cases c <;>
    simp [confidenceScore, min_def] <;> norm_num

/-- C4: every record the improved pipeline emits carries the claimed
confidence formula over the presence of its own title, long description,
example pair and constraints text; the formula is bounded by `[0, 1]` and
monotonically non-decreasing in each of the four attributes. -/
theorem C4_confidence_formula :
    (∀ (doc : Doc) (pid : String) (p : Problem),
      extract_problem_improved doc pid = some p →
      p.confidence = confidenceScore (decide (p.title ≠ ""))
        (decide (p.description ≠ "" ∧ p.description.length > 50))
        (decide (p.sampleCases ≠ [])) (decide (p.constraintsDescription ≠ ""))) ∧
    (∀ t d e c, 0 ≤ confidenceScore t d e c ∧ confidenceScore t d e c ≤ 1) ∧
    (∀ d e c, confidenceScore false d e c ≤ confidenceScore true d e c) ∧
    (∀ t e c, confidenceScore t false e c ≤ confidenceScore t true e c) ∧
    (∀ t d c, confidenceScore t d false c ≤ confidenceScore t d true c) ∧
    (∀ t d e, confidenceScore t d e false ≤ confidenceScore t d e true) := by
  refine ⟨?_, ?_, ?_, ?_, ?_, ?_⟩
  · intro doc pid p h
    rw [improved_some_shape doc pid p h]
    obtain ⟨t, hT, htne⟩ := smGet_synthetic_title doc.dom pid
    show confidenceOf (sectionsWithSynthetic doc.dom pid)
        (extract_examples_improved (sectionsWithSynthetic doc.dom pid)) = _
    rw [confidenceOf_eq_score]
    rw [show (assembleProblem (sectionsWithSynthetic doc.dom pid) pid).title =
      (smGet (sectionsWithSynthetic doc.dom pid) "title").getD ("Problem " ++ pid) from rfl]
    rw [hT]
    rfl
  · intro t d e c
    cases t <;> cases d <;> cases e <;> cases c <;>
      simp [confidenceScore, min_def] <;> norm_num
  · intro d e c
    cases d <;> cases e <;> cases c <;> simp [confidenceScore, min_def] <;> norm_num
  · intro t e c
    cases t <;> cases e <;> cases c <;> simp [confidenceScore, min_def] <;> norm_num
  · intro t d c
    cases t <;> cases d <;> cases c <;> simp [confidenceScore, min_def] <;> norm_num
  · intro t d e
    cases t <;> cases d <;> cases e <;> simp [confidenceScore, min_def] <;> norm_num

/-- Witness for C4 on the record extracted from `docAdd`. -/
theorem C4_confidence_formula_witness :
    (assembleProblem (sectionsWithSynthetic docAdd.dom "p00001") "p00001").confidence =
      confidenceScore
        (decide ((assembleProblem (sectionsWithSynthetic docAdd.dom "p00001")
          "p00001").title ≠ ""))
        (decide ((assembleProblem (sectionsWithSynthetic docAdd.dom "p00001")
            "p00001").description ≠ "" ∧
          (assembleProblem (sectionsWithSynthetic docAdd.dom "p00001")
            "p00001").description.length > 50))
        (decide ((assembleProblem (sectionsWithSynthetic docAdd.dom "p00001")
          "p00001").sampleCases ≠ []))
        (decide ((assembleProblem (sectionsWithSynthetic docAdd.dom "p00001")
          "p00001").constraintsDescription ≠ "")) :=
  C4_confidence_formula.1 docAdd "p00001" _ rfl

/-- C5 (amended): in the improved pipeline, a document whose first `h1`
has nonempty (stripped, and nonempty once normalised) text yields a
record whose title is exactly the normalised text of that heading. -/
theorem C5_title_from_primary_heading (doc : Doc) (pid : String) (h1 : Node)
    (hraw : pyStrip doc.raw ≠ "")
    (hfind : findFirstIn (fun n => n.tagOf == some "h1") doc.dom = some h1)
    (htext : pyStrip (getText h1) ≠ "")
    (hclean : clean_html_text h1 ≠ "") :
    ∃ p, extract_problem_improved doc pid = some p ∧ p.title = clean_html_text h1 := by
  have hs1 : titleStrategy1 doc.dom = some (clean_html_text h1) := by
    unfold titleStrategy1
    rw [hfind]
    dsimp only
    rw [if_pos htext]
  have htitle : extract_title_flexible doc.dom = clean_html_text h1 := by
    unfold extract_title_flexible
    rw [hs1]
  have hsec : smGet (extract_sections_from_html_improved doc.dom) "title" =
      some (clean_html_text h1) := by
    rw [smGet_sections_improved_title, htitle, if_pos hclean]
  have hgetD : (smGet (extract_sections_from_html_improved doc.dom) "title").getD "" =
      clean_html_text h1 := by rw [hsec]; rfl
  have hT2 : smGet (sectionsWithSynthetic doc.dom pid) "title" =
      some (clean_html_text h1) := by
    unfold sectionsWithSynthetic
    rw [if_neg (fun hh => hclean (hgetD.symm.trans hh))]
    exact hsec
  refine ⟨assembleProblem (sectionsWithSynthetic doc.dom pid) pid, ?_, ?_⟩
  · unfold extract_problem_improved
    rw [if_neg hraw]
    unfold extractCore
    dsimp only
    rw [if_neg (fun hc => hclean (hgetD.symm.trans hc.1))]
  · rw [show (assembleProblem (sectionsWithSynthetic doc.dom pid) pid).title =
      (smGet (sectionsWithSynthetic doc.dom pid) "title").getD ("Problem " ++ pid) from rfl]
    rw [hT2]
    rfl

/-- Witness for C5 on `docAdd`, whose first `h1` is `Add`. -/
theorem C5_title_from_primary_heading_witness :
    (extract_problem_improved docAdd "p00001").map Problem.title =
      some (clean_html_text (Node.elem "h1" [Node.text "Add"])) := by
  obtain ⟨p, hp, ht⟩ := C5_title_from_primary_heading docAdd "p00001"
    (Node.elem "h1" [Node.text "Add"]) (by decide) rfl (by decide) (by decide)
  rw [hp, Option.map_some', ht]

/-- Counterexample for C5 as frozen: the original pipeline strips the
literal `Problem A: ` prefix, so the record title is `Sum` while the
normalised text of the `h1` heading is `Problem A: Sum`. -/
theorem C5_counterexample :
    (extract_problem_from_html_file docPrefixedTitle "p00001").map Problem.title =
      some "Sum" ∧
    clean_html_text (Node.elem "h1" [Node.text "Problem A: Sum"]) = "Problem A: Sum" ∧
    ("Sum" : String) ≠ "Problem A: Sum" := by
  refine ⟨?_, ?_, ?_⟩ <;> decide

/-- C10: every record the improved pipeline emits has confidence at least
`0.6` — the synthetic title applied before the confidence computation
makes the title increment unconditional — indeed the confidence always
lies in `{0.6, 0.7, 0.8, 0.9, 1.0}`, so the `low` reporting bucket is
unreachable. -/
theorem C10_confidence_floor (doc : Doc) (pid : String) (p : Problem)
    (h : extract_problem_improved doc pid = some p) :
    3/5 ≤ p.confidence ∧
    (p.confidence = 3/5 ∨ p.confidence = 7/10 ∨ p.confidence = 4/5 ∨
     p.confidence = 9/10 ∨ p.confidence = 1) ∧
    confidenceBucket p.confidence ≠ "low" := by
  rw [improved_some_shape doc pid p h]
  obtain ⟨t, hT, htne⟩ := smGet_synthetic_title doc.dom pid
  have hflag : (smGet (sectionsWithSynthetic doc.dom pid) "title").getD "" ≠ "" := by
    rw [hT]; exact htne
  have hc : (assembleProblem (sectionsWithSynthetic doc.dom pid) pid).confidence =
      confidenceOf (sectionsWithSynthetic doc.dom pid)
        (extract_examples_improved (sectionsWithSynthetic doc.dom pid)) := rfl
  rw [hc, confidenceOf_eq_score, decide_eq_true hflag]
  obtain ⟨hge, hmem⟩ := confidenceScore_true_values
    (decide ((smGet (sectionsWithSynthetic doc.dom pid) "description").getD "" ≠ "" ∧
      ((smGet (sectionsWithSynthetic doc.dom pid) "description").getD "").length > 50))
    (decide (extract_examples_improved (sectionsWithSynthetic doc.dom pid) ≠ []))
    (decide ((smGet (sectionsWithSynthetic doc.dom pid) "constraints").getD "" ≠ ""))
  exact ⟨hge, hmem, bucket_not_low _ hge⟩

/-- Witness for C10 on the record extracted from `docAdd`. -/
theorem C10_confidence_floor_witness :
    3/5 ≤ (assembleProblem (sectionsWithSynthetic docAdd.dom "p00001") "p00001").confidence ∧
    ((assembleProblem (sectionsWithSynthetic docAdd.dom "p00001") "p00001").confidence = 3/5 ∨
     (assembleProblem (sectionsWithSynthetic docAdd.dom "p00001") "p00001").confidence = 7/10 ∨
     (assembleProblem (sectionsWithSynthetic docAdd.dom "p00001") "p00001").confidence = 4/5 ∨
     (assembleProblem (sectionsWithSynthetic docAdd.dom "p00001") "p00001").confidence = 9/10 ∨
     (assembleProblem (sectionsWithSynthetic docAdd.dom "p00001") "p00001").confidence = 1) ∧
    confidenceBucket
      (assembleProblem (sectionsWithSynthetic docAdd.dom "p00001") "p00001").confidence ≠
      "low" :=
  C10_confidence_floor docAdd "p00001" _ rfl

end CodeNet
